import Mathlib

set_option maxRecDepth 100000

/-!
Shallow embedding of the safeexecute repository (src/safeexecute/__init__.py)
and proofs about the claims of its specification.

The repository's execution engine is the function `execute_python_code`:
it stages a snippet into a workspace, resolves dependency install commands,
writes a wrapper script, dispatches one Docker container to run it, and
classifies the captured logs.  Python strings are modelled as `String`
(with character-list workhorses on `List Char`), the filesystem of the
workspace as an association list of file name and content, raised Python
exceptions as explicit outcome constructors, and the Docker side effects
as a recorded list of container invocations.
-/

namespace SafeExecute

/-- Backtick character, written by code point to keep source text plain. -/
def btChar : Char := Char.ofNat 96

/-- Single-quote character, used inside shell command strings built by the source. -/
def sq : String := String.singleton (Char.ofNat 39)

/-- Substring test on character lists: embedding of the Python `in` operator on `str`
and of the scanning done by `re` for a literal. -/
def containsSub (p : List Char) : List Char → Bool
  | [] => p.isEmpty
  | c :: t => p.isPrefixOf (c :: t) || containsSub p t

/-- Substring test on strings. -/
def containsSubS (p s : String) : Bool := containsSub p.data s.data

/-- Text before the first occurrence of `sep` (the whole list when `sep` is absent). -/
def beforeFirst (sep : List Char) : List Char → List Char
  | [] => []
  | c :: t => if sep.isPrefixOf (c :: t) then [] else c :: beforeFirst sep t

/-- Text after the first occurrence of `sep` (empty when `sep` is absent). -/
def afterFirst (sep : List Char) : List Char → List Char
  | [] => []
  | c :: t => if sep.isPrefixOf (c :: t) then (c :: t).drop sep.length else afterFirst sep t

/-- String version of `afterFirst`: embedding of Python
`s.split(sep, 1)[1]` when `sep` occurs in `s`. -/
def afterFirstS (sep s : String) : String := String.mk (afterFirst sep.data s.data)

/-- Fuelled embedding of Python `str.split(sep)` for a non-empty separator:
the text before each occurrence, scanning left to right without overlap. -/
def pySplitF (sep : List Char) : Nat → List Char → List (List Char)
  | 0, l => [l]
  | fuel + 1, l =>
    if !sep.isEmpty && containsSub sep l then
      beforeFirst sep l :: pySplitF sep fuel (afterFirst sep l)
    else [l]

/-- Python `str.split(sep)` on character lists (fuel is sufficient, see
`pySplitF_congr`). -/
def pySplit (sep l : List Char) : List (List Char) := pySplitF sep (l.length + 1) l

/-- The docker image name `IMAGE_NAME` of the source. -/
def IMAGE_NAME : String := "joshxt/safeexecute:latest"

/-- The static alias table `IMPORT_TO_PACKAGE` of the source, in source order. -/
def IMPORT_TO_PACKAGE : List (String × String) := [
  ("cv2", "opencv-python"),
  ("PIL", "pillow"),
  ("sklearn", "scikit-learn"),
  ("skimage", "scikit-image"),
  ("yaml", "pyyaml"),
  ("bs4", "beautifulsoup4"),
  ("dateutil", "python-dateutil"),
  ("dotenv", "python-dotenv"),
  ("jose", "python-jose"),
  ("magic", "python-magic"),
  ("docx", "python-docx"),
  ("pptx", "python-pptx"),
  ("Bio", "biopython"),
  ("cv", "opencv-python"),
  ("telegram", "python-telegram-bot"),
  ("serial", "pyserial"),
  ("usb", "pyusb"),
  ("Crypto", "pycryptodome"),
  ("OpenSSL", "pyopenssl"),
  ("jwt", "pyjwt"),
  ("wx", "wxpython"),
  ("gi", "pygobject"),
  ("fitz", "pymupdf"),
  ("lxml", "lxml"),
  ("openpyxl", "openpyxl"),
  ("xlrd", "xlrd"),
  ("xlsxwriter", "xlsxwriter")]

/-- Embedding of `IMPORT_TO_PACKAGE.get(imp, imp)`: the package name an import
name installs under (its own name when absent from the table). -/
def packageFor (imp : String) : String :=
  match IMPORT_TO_PACKAGE.find? (fun pr => pr.1 == imp) with
  | some pr => pr.2
  | none => imp

/-- The install command built for one explicit `pip install` package (source line 122). -/
def explicitInstallCommand (pkg : String) : String :=
  "pip install -q " ++ pkg ++ " 2>/dev/null || true"

/-- The probe-then-install command built for one imported module name (source line 128). -/
def importInstallCommand (imp : String) : String :=
  "python -c " ++ sq ++ "import " ++ imp ++ sq ++
    " 2>/dev/null || pip install -q " ++ packageFor imp ++ " 2>/dev/null || true"

/-- Embedding of the two `install_commands` accumulation loops of
`execute_python_code` (source lines 118-129): explicit packages first,
then one command per imported module name. -/
def buildInstallCommands (explicitPkgs imports : List String) : List String :=
  let afterExplicit :=
    explicitPkgs.foldl (fun acc pkg => acc ++ [explicitInstallCommand pkg]) []
  imports.foldl (fun acc imp => acc ++ [importInstallCommand imp]) afterExplicit

/-- The wrapper script content of source lines 132-136: a bash script that runs
every install command and then runs the staged snippet, in one process. -/
def wrapperScript (explicitPkgs imports : List String) : String :=
  "#!/bin/bash\n" ++ String.intercalate "\n" (buildInstallCommands explicitPkgs imports) ++
    "\npython /workspace/temp.py\n"

/-- Whitespace in the sense of the regex class used by the source
(ASCII range of Python re \s). -/
def isWs (c : Char) : Bool :=
  c == ' ' || c == Char.ofNat 9 || c == Char.ofNat 10 || c == Char.ofNat 13 ||
    c == Char.ofNat 11 || c == Char.ofNat 12

/-- Characters matched by the capture-group class of the source regex on line 98:
word characters, bracket and comparison punctuation, comma, dot, and whitespace
(ASCII range of Python re \w and \s). -/
def allowedChar (c : Char) : Bool :=
  c.isAlphanum || c == '_' || c == '-' || c == '[' || c == ']' || c == '>' ||
    c == '=' || c == '<' || c == ',' || c == '.' || isWs c

/-- The literal part of the source regex on line 98. -/
def pipLit : List Char := "pip install".data

/-- Embedding of `re.findall` for the source pattern of line 98: scan left to
right; at each occurrence of the literal, greedily take at least one whitespace
character and then the longest run of class characters as the capture group
(when the whole run is whitespace, backtracking leaves the last whitespace
character as the group); on success continue after the match, otherwise advance
one character. -/
def findInstallMatches : Nat → List Char → List (List Char)
  | 0, _ => []
  | _ + 1, [] => []
  | fuel + 1, c :: t =>
    if pipLit.isPrefixOf (c :: t) then
      let rest := (c :: t).drop pipLit.length
      let run := rest.takeWhile allowedChar
      if isWs (run.headD 'x') && decide (2 ≤ run.length) then
        let wsLen := (run.takeWhile isWs).length
        let grp := if run.length ≤ wsLen then run.drop (wsLen - 1) else run.drop wsLen
        grp :: findInstallMatches fuel ((c :: t).drop (pipLit.length + run.length))
      else findInstallMatches fuel t
    else findInstallMatches fuel t

/-- Embedding of Python `str.strip()` (ASCII whitespace). -/
def stripWs (l : List Char) : List Char :=
  ((l.dropWhile isWs).reverse.dropWhile isWs).reverse

/-- Embedding of source lines 98-99: the explicit `pip install` packages found
in the snippet text, stripped, with empty captures dropped. -/
def explicitPackages (code : String) : List String :=
  (((findInstallMatches (code.data.length + 1) code.data).map stripWs).filter
    (fun g => !g.isEmpty)).map String.mk

/-- The fenced-block opening marker of source line 102. -/
def pyMarkerL : List Char := "```python".data

/-- The fence marker of source line 103. -/
def btMarkerL : List Char := "```".data

/-- Embedding of source lines 101-103: when the opening marker occurs, keep the
text between the first opening marker and the following fence, else keep the
code unchanged. -/
def stripCodeBlock (l : List Char) : List Char :=
  if containsSub pyMarkerL l then
    (pySplit btMarkerL ((pySplit pyMarkerL l).getD 1 [])).getD 0 []
  else l

/-- String version of `stripCodeBlock`. -/
def stripCodeBlockS (code : String) : String := String.mk (stripCodeBlock code.data)

/-- The two text-level preprocessing results of one call, in source order:
explicit packages are extracted from the original text (line 98), the staged
code is the stripped text (lines 101-103). -/
structure RequestPlan where
  explicitPkgs : List String
  stagedCode : String
deriving DecidableEq

/-- Preprocessing pipeline of source lines 97-106. -/
def planFor (code : String) : RequestPlan :=
  { explicitPkgs := explicitPackages code, stagedCode := stripCodeBlockS code }

/-- The error guidance block appended on failure (source lines 192-202). -/
def guidance : String :=
  "\n\n---\n" ++
  "**Code Execution Failed**: The code above produced an error. " ++
  "Please analyze the error message, fix the code, and try again. " ++
  "Common fixes include:\n" ++
  "- Check column names match exactly (use df.columns to see available columns)\n" ++
  "- Verify file paths and filenames exist\n" ++
  "- Ensure required variables are defined before use\n" ++
  "- Check data types match expected operations\n" ++
  "- Handle missing or null values appropriately\n"

/-- The `error_indicators` list of source lines 169-184. -/
def error_indicators : List String := [
  "Traceback (most recent call last):",
  "SyntaxError:",
  "NameError:",
  "TypeError:",
  "ValueError:",
  "KeyError:",
  "IndexError:",
  "AttributeError:",
  "ImportError:",
  "ModuleNotFoundError:",
  "FileNotFoundError:",
  "ZeroDivisionError:",
  "RuntimeError:",
  "Exception:"]

/-- Embedding of the `has_error` test of source lines 186-188. -/
def hasError (exitCode : Int) (logs : String) : Bool :=
  decide (exitCode ≠ 0) || error_indicators.any (fun ind => containsSub ind.data logs.data)

/-- Embedding of the result classification of source lines 186-206: on failure
the guidance block is appended to the logs, on success the logs are returned. -/
def classifyResult (exitCode : Int) (logs : String) : String :=
  if hasError exitCode logs then logs ++ guidance else logs

/-- Outcome of the `client.containers.run` plus `container.wait` calls for one
invocation: either the docker library raises, or the container completes with a
status code and logs. -/
inductive RunOutcome
  | raises (msg : String)
  | completes (statusCode : Int) (logs : String)
deriving DecidableEq

/-- Host environment of one call: current directory, the two values consulted
for in-container path translation (source lines 81-92), whether obtaining the
docker client raises (source lines 44-53), and the container run outcome. -/
structure Env where
  cwd : String
  inDockerenv : Bool
  hostWorkspace : Option String
  clientError : Option String
  runOutcome : RunOutcome
deriving DecidableEq

/-- Embedding of `install_docker_image` (source lines 44-53): obtain a docker
client, pulling the image when absent; modelled as succeeding exactly when the
environment reports no client or daemon error.  There is no other backend to
fall back to in the source. -/
def install_docker_image (env : Env) : Except String Unit :=
  match env.clientError with
  | some e => Except.error e
  | none => Except.ok ()

/-- Embedding of Python `str.rstrip` for the slash character (source line 90). -/
def rstripSlash (s : String) : String :=
  String.mk ((s.data.reverse.dropWhile (fun c => c == '/')).reverse)

/-- Embedding of `os.path.abspath` relative to the process working directory;
dot-segment normalisation is not modelled (no claim consults this value). -/
def abspath (cwd p : String) : String :=
  if p.startsWith "/" then p else cwd ++ "/" ++ p

/-- The default of the `working_directory` parameter (source lines 78-79). -/
def workspaceDir (env : Env) (workingDirectory : Option String) : String :=
  workingDirectory.getD (env.cwd ++ "/WORKSPACE")

/-- Embedding of the container-to-host path translation of source lines 81-92. -/
def dockerVolumePath (env : Env) (wd : String) : String :=
  if env.inDockerenv then
    match env.hostWorkspace with
    | some hw =>
      if containsSubS "/WORKSPACE" wd then
        rstripSlash hw ++ afterFirstS "/WORKSPACE" wd
      else hw
    | none => wd
  else wd

/-- One dispatched container invocation with every argument of the
`client.containers.run` call of source lines 143-156; `networkDisabled` and
`networkMode` record the docker network options, which the call site does not
pass, so they keep the docker defaults (network enabled); `waitTimeout` records
the timeout argument of the following `container.wait()` call, which the source
does not pass either. -/
structure ContainerInvocation where
  image : String
  command : String
  volumeHost : String
  volumeBind : String
  volumeMode : String
  workingDir : String
  stderrFlag : Bool
  stdoutFlag : Bool
  detach : Bool
  networkDisabled : Bool
  networkMode : Option String
  waitTimeout : Option Nat
deriving DecidableEq

/-- True when an invocation carries any network-restricting option. -/
def networkRestricted (inv : ContainerInvocation) : Bool :=
  inv.networkDisabled || inv.networkMode == some "none"

/-- Workspace filesystem and docker side effects of a call: current files of
the workspace (name and content), the log of every file write, and the list of
dispatched container invocations. -/
structure ExecState where
  files : List (String × String)
  writes : List (String × String)
  invocations : List ContainerInvocation
deriving DecidableEq

/-- Embedding of `open(name, "w").write(content)`: overwrite semantics, with
the write also logged. -/
def writeFile (st : ExecState) (name content : String) : ExecState :=
  { st with
    files := (name, content) :: st.files.filter (fun p => p.1 != name)
    writes := st.writes ++ [(name, content)] }

/-- Embedding of the guarded `os.remove` of source lines 163-166. -/
def removeFile (st : ExecState) (name : String) : ExecState :=
  { st with files := st.files.filter (fun p => p.1 != name) }

/-- The string returned by the exception handler of source lines 207-209. -/
def errorResult (e : String) : String :=
  "Error: " ++ e ++ "\n\n---\n**Execution Failed**: Please fix the issue and try again."

/-- The container invocation dispatched by source lines 143-156, together with
the timeout argument (none) of the `container.wait()` call on line 157. -/
def runInvocation (env : Env) (workingDirectory : Option String) : ContainerInvocation :=
  { image := IMAGE_NAME
    command := "bash /workspace/run_wrapper.sh"
    volumeHost := abspath env.cwd (dockerVolumePath env (workspaceDir env workingDirectory))
    volumeBind := "/workspace"
    volumeMode := "rw"
    workingDir := "/workspace"
    stderrFlag := true
    stdoutFlag := true
    detach := true
    networkDisabled := false
    networkMode := none
    waitTimeout := none }

/-- Embedding of `execute_python_code` (source lines 77-209).  The `imports`
parameter stands for the value of `extract_imports` on the staged code: that
function runs Python's `ast` parser (a full Python language parser, outside
this embedding) and yields a set iterated in unspecified order, so every claim
is settled for an arbitrary list of imported names.  Directory creation and
`chmod` are not modelled.  Raised docker exceptions are the explicit outcomes
of `Env`; the single `try`/`except` of the source is the `match` on them, and
each arm returns a string, so the function is total like the source call
surface. -/
def execute_python_code (env : Env) (code : String) (imports : List String)
    (workingDirectory : Option String) (st0 : ExecState) : String × ExecState :=
  let wd := workspaceDir env workingDirectory
  let explicitPkgs := explicitPackages code
  let staged := stripCodeBlockS code
  let tempFile := wd ++ "/temp.py"
  let st1 := writeFile st0 tempFile staged
  match install_docker_image env with
  | Except.error e => (errorResult e, st1)
  | Except.ok _ =>
    let wrapperFile := wd ++ "/run_wrapper.sh"
    let st2 := writeFile st1 wrapperFile (wrapperScript explicitPkgs imports)
    match env.runOutcome with
    | RunOutcome.raises e => (errorResult e, st2)
    | RunOutcome.completes ec logs =>
      let st3 := { st2 with invocations := st2.invocations ++ [runInvocation env workingDirectory] }
      let st4 := removeFile (removeFile st3 tempFile) wrapperFile
      (classifyResult ec logs, st4)

/-! ### Concrete fixtures used by witnesses and counterexamples -/

/-- Environment of a host where docker works and the container completes
successfully. -/
def envOk : Env :=
  { cwd := "CWD", inDockerenv := false, hostWorkspace := none,
    clientError := none, runOutcome := RunOutcome.completes 0 "2\n" }

/-- Environment of a host where obtaining the docker client raises. -/
def envBad : Env :=
  { cwd := "CWD", inDockerenv := false, hostWorkspace := none,
    clientError := some "Docker daemon unreachable",
    runOutcome := RunOutcome.completes 0 "" }

/-- Fixture: text before a fenced block, holding an explicit install directive. -/
def preW : List Char := "notes: pip install requests\n".data

/-- Fixture: the fenced snippet body. -/
def midW : List Char := "\nprint(1+1)\n".data

/-- Fixture: text after the closing fence. -/
def postW : List Char := "\nafter".data

/-- Fixture: a snippet performing a cd-equivalent directive. -/
def cdCode : String := "import os\nos.chdir(\"/workspace/sub\")\nprint(1)"

/-- Fixture: a snippet referencing a relative path. -/
def relPathCode : String := "print(open(\"data.txt\").read())"

/-! ### Helper lemmas about the character-list workhorses -/

theorem containsSub_eq_true_iff (p l : List Char) : containsSub p l = true ↔ p <:+: l := by
  induction l with
  | nil => simp [containsSub]
  | cons c t ih =>
    simp [containsSub, List.infix_cons_iff, ih, List.isPrefixOf_iff_prefix]

theorem beforeFirst_of_not_contains (sep l : List Char) (h : containsSub sep l = false) :
    beforeFirst sep l = l := by
  induction l with
  | nil => rfl
  | cons c t ih =>
    rw [containsSub, Bool.or_eq_false_iff] at h
    simp [beforeFirst, h.1, ih h.2]

theorem beforeFirst_prefix (sep l : List Char) : beforeFirst sep l <+: l := by
  induction l with
  | nil => simp [beforeFirst]
  | cons c t ih =>
    by_cases hp : sep.isPrefixOf (c :: t) = true
    · simp [beforeFirst, hp]
    · simp [beforeFirst, hp, List.cons_prefix_cons, ih]

theorem isPrefixOf_append_self (sep r : List Char) : sep.isPrefixOf (sep ++ r) = true := by
  simp [List.isPrefixOf_iff_prefix]

theorem beforeFirst_append (sep a r : List Char)
    (h : ∀ i < a.length, ¬ sep.isPrefixOf ((a ++ (sep ++ r)).drop i) = true) :
    beforeFirst sep (a ++ (sep ++ r)) = a := by
  induction a with
  | nil =>
    simp only [List.nil_append]
    cases hsr : sep ++ r with
    | nil => rfl
    | cons c t =>
      have hp : sep.isPrefixOf (c :: t) = true := by
        rw [← hsr]; exact isPrefixOf_append_self sep r
      simp [beforeFirst, hp]
  | cons x a' ih =>
    have h0 := h 0 (by simp)
    simp only [List.cons_append, List.drop_zero] at h0
    have ih' := ih (fun i hi => by
      have := h (i + 1) (by simpa using Nat.succ_lt_succ hi)
      simpa using this)
    simp [beforeFirst, h0, ih']

theorem afterFirst_append (sep a r : List Char)
    (h : ∀ i < a.length, ¬ sep.isPrefixOf ((a ++ (sep ++ r)).drop i) = true) :
    afterFirst sep (a ++ (sep ++ r)) = r := by
  induction a with
  | nil =>
    simp only [List.nil_append]
    cases hsr : sep ++ r with
    | nil =>
      have := List.append_eq_nil.mp hsr
      rw [this.2]; rfl
    | cons c t =>
      have hp : sep.isPrefixOf (c :: t) = true := by
        rw [← hsr]; exact isPrefixOf_append_self sep r
      simp only [afterFirst, hp, if_true]
      rw [← hsr, List.drop_left]
  | cons x a' ih =>
    have h0 := h 0 (by simp)
    simp only [List.cons_append, List.drop_zero] at h0
    have ih' := ih (fun i hi => by
      have := h (i + 1) (by simpa using Nat.succ_lt_succ hi)
      simpa using this)
    simp [afterFirst, h0, ih']

theorem afterFirst_length_lt (sep l : List Char) (hsep : sep ≠ [])
    (h : containsSub sep l = true) : (afterFirst sep l).length < l.length := by
  induction l with
  | nil => simp [containsSub, List.isEmpty_iff, hsep] at h
  | cons c t ih =>
    by_cases hp : sep.isPrefixOf (c :: t) = true
    · rw [afterFirst, if_pos hp, List.length_drop]
      have hpos : 0 < sep.length := List.length_pos.mpr hsep
      simp only [List.length_cons]
      omega
    · rw [containsSub, Bool.or_eq_true] at h
      rcases h with h | h
      · exact absurd h hp
      · rw [afterFirst, if_neg hp]
        exact Nat.lt_succ_of_lt (ih h)

theorem pySplitF_succ (sep : List Char) (fuel : Nat) (l : List Char) :
    pySplitF sep (fuel + 1) l =
      if !sep.isEmpty && containsSub sep l then
        beforeFirst sep l :: pySplitF sep fuel (afterFirst sep l)
      else [l] := rfl

theorem pySplitF_congr (sep : List Char) :
    ∀ (f f' : Nat) (l : List Char), l.length < f → l.length < f' →
      pySplitF sep f l = pySplitF sep f' l := by
  intro f
  induction f with
  | zero => intro f' l hf _; omega
  | succ g ih =>
    intro f' l hf hf'
    cases f' with
    | zero => omega
    | succ g' =>
      by_cases hc : (!sep.isEmpty && containsSub sep l) = true
      · have hc' := hc
        simp only [Bool.and_eq_true] at hc'
        have hsep : sep ≠ [] := by simpa [List.isEmpty_iff] using hc'.1
        have hcs : containsSub sep l = true := hc'.2
        have hlt := afterFirst_length_lt sep l hsep hcs
        rw [pySplitF_succ, pySplitF_succ, if_pos hc, if_pos hc]
        rw [ih g' (afterFirst sep l) (by omega) (by omega)]
      · rw [pySplitF_succ, pySplitF_succ, if_neg hc, if_neg hc]

theorem pySplit_head (sep l : List Char) (hsep : sep ≠ []) :
    (pySplit sep l).getD 0 [] = beforeFirst sep l := by
  unfold pySplit
  by_cases hc : containsSub sep l = true
  · have hcond : (!sep.isEmpty && containsSub sep l) = true := by
      simp [hc, List.isEmpty_iff, hsep]
    rw [pySplitF_succ, if_pos hcond, List.getD_cons_zero]
  · have hcond : (!sep.isEmpty && containsSub sep l) = false := by
      simp [Bool.eq_false_iff.mpr hc]
    rw [pySplitF_succ, if_neg (by simp [hcond]), List.getD_cons_zero]
    exact (beforeFirst_of_not_contains sep l (Bool.eq_false_iff.mpr hc)).symm

theorem pySplit_append (sep a r : List Char) (hsep : sep ≠ [])
    (h : ∀ i < a.length, ¬ sep.isPrefixOf ((a ++ (sep ++ r)).drop i) = true) :
    pySplit sep (a ++ (sep ++ r)) = a :: pySplit sep r := by
  have hcs : containsSub sep (a ++ (sep ++ r)) = true := by
    rw [containsSub_eq_true_iff]
    exact ⟨a, r, by simp⟩
  have hcond : (!sep.isEmpty && containsSub sep (a ++ (sep ++ r))) = true := by
    simp [hcs, List.isEmpty_iff, hsep]
  unfold pySplit
  rw [pySplitF_succ, if_pos hcond, beforeFirst_append sep a r h, afterFirst_append sep a r h]
  congr 1
  apply pySplitF_congr
  · have hpos : 0 < sep.length := List.length_pos.mpr hsep
    simp only [List.length_append]
    omega
  · omega

/-! ### Helper lemmas about the fenced-block markers -/

theorem btMarkerL_eq : btMarkerL = [btChar, btChar, btChar] := by decide

theorem pyMarkerL_eq :
    pyMarkerL = btChar :: btChar :: btChar :: 'p' :: 'y' :: 't' :: 'h' :: 'o' :: 'n' :: [] := by
  decide

theorem bt_isPrefixOf_of_py {x : List Char} (h : pyMarkerL.isPrefixOf x = true) :
    btMarkerL.isPrefixOf x = true := by
  rw [List.isPrefixOf_iff_prefix] at h ⊢
  exact List.IsPrefix.trans (by decide) h

theorem beforeFirst_cons (sep : List Char) (c : Char) (t : List Char) :
    beforeFirst sep (c :: t) =
      if sep.isPrefixOf (c :: t) = true then [] else c :: beforeFirst sep t := rfl

theorem py_not_prefix_two (post : List Char) (h3 : post.head? ≠ some btChar) :
    pyMarkerL.isPrefixOf (btChar :: btChar :: post) = false := by
  cases post with
  | nil => decide
  | cons d t =>
    have hd : (btChar == d) = false := by
      simp only [beq_eq_false_iff_ne, ne_eq]
      intro he
      exact h3 (by rw [List.head?_cons, ← he])
    rw [pyMarkerL_eq]
    simp [List.isPrefixOf, hd]

theorem py_not_prefix_one (post : List Char) (h3 : post.head? ≠ some btChar) :
    pyMarkerL.isPrefixOf (btChar :: post) = false := by
  cases post with
  | nil => decide
  | cons d t =>
    have hd : (btChar == d) = false := by
      simp only [beq_eq_false_iff_ne, ne_eq]
      intro he
      exact h3 (by rw [List.head?_cons, ← he])
    rw [pyMarkerL_eq]
    simp [List.isPrefixOf, hd]

theorem beforeFirst_nested : ∀ (mid post : List Char),
    (∀ i < mid.length, ¬ btMarkerL.isPrefixOf ((mid ++ (btMarkerL ++ post)).drop i) = true) →
    post.head? ≠ some btChar →
    beforeFirst btMarkerL (beforeFirst pyMarkerL (mid ++ (btMarkerL ++ post))) = mid := by
  intro mid
  induction mid with
  | nil =>
    intro post _ h3
    simp only [List.nil_append, btMarkerL_eq, List.cons_append]
    by_cases hp : pyMarkerL.isPrefixOf (btChar :: btChar :: btChar :: post) = true
    · rw [beforeFirst_cons, if_pos hp]; rfl
    · have hp' : pyMarkerL.isPrefixOf (btChar :: btChar :: btChar :: post) = false :=
        Bool.eq_false_iff.mpr hp
      have e1 : beforeFirst pyMarkerL (btChar :: btChar :: btChar :: post)
          = btChar :: beforeFirst pyMarkerL (btChar :: btChar :: post) := by
        rw [beforeFirst_cons, if_neg (by simp [hp'])]
      have e2 : beforeFirst pyMarkerL (btChar :: btChar :: post)
          = btChar :: beforeFirst pyMarkerL (btChar :: post) := by
        rw [beforeFirst_cons, if_neg (by simp [py_not_prefix_two post h3])]
      have e3 : beforeFirst pyMarkerL (btChar :: post)
          = btChar :: beforeFirst pyMarkerL post := by
        rw [beforeFirst_cons, if_neg (by simp [py_not_prefix_one post h3])]
      rw [e1, e2, e3, beforeFirst_cons, if_pos (by simp [List.isPrefixOf])]
  | cons c mid' ih =>
    intro post h2 h3
    have h0 : ¬ btMarkerL.isPrefixOf (c :: (mid' ++ (btMarkerL ++ post))) = true := by
      have := h2 0 (by simp)
      simpa using this
    have hpy0 : pyMarkerL.isPrefixOf (c :: (mid' ++ (btMarkerL ++ post))) = false :=
      Bool.eq_false_iff.mpr (fun habs => h0 (bt_isPrefixOf_of_py habs))
    rw [List.cons_append, beforeFirst_cons, if_neg (by simp [hpy0])]
    have hX := beforeFirst_prefix pyMarkerL (mid' ++ (btMarkerL ++ post))
    have hbt : btMarkerL.isPrefixOf
        (c :: beforeFirst pyMarkerL (mid' ++ (btMarkerL ++ post))) = false := by
      rw [Bool.eq_false_iff]
      intro habs
      rw [List.isPrefixOf_iff_prefix] at habs
      have hcons : (c :: beforeFirst pyMarkerL (mid' ++ (btMarkerL ++ post))) <+:
          (c :: (mid' ++ (btMarkerL ++ post))) := (List.cons_prefix_cons).mpr ⟨rfl, hX⟩
      have htrans := habs.trans hcons
      rw [← List.isPrefixOf_iff_prefix] at htrans
      exact h0 htrans
    rw [beforeFirst_cons, if_neg (by simp [hbt])]
    have ih' := ih post (fun i hi => by
      have := h2 (i + 1) (by simpa using Nat.succ_lt_succ hi)
      simpa using this) h3
    rw [ih']

theorem stripCodeBlock_fenced (pre mid post : List Char)
    (h1 : ∀ i < pre.length,
      ¬ pyMarkerL.isPrefixOf ((pre ++ (pyMarkerL ++ (mid ++ (btMarkerL ++ post)))).drop i) = true)
    (h2 : ∀ i < mid.length, ¬ btMarkerL.isPrefixOf ((mid ++ (btMarkerL ++ post)).drop i) = true)
    (h3 : post.head? ≠ some btChar) :
    stripCodeBlock (pre ++ (pyMarkerL ++ (mid ++ (btMarkerL ++ post)))) = mid := by
  have hpy : pyMarkerL ≠ [] := by decide
  have hbt : btMarkerL ≠ [] := by decide
  have hcs : containsSub pyMarkerL (pre ++ (pyMarkerL ++ (mid ++ (btMarkerL ++ post)))) = true := by
    rw [containsSub_eq_true_iff]
    exact ⟨pre, mid ++ (btMarkerL ++ post), by simp⟩
  rw [stripCodeBlock, if_pos hcs]
  rw [pySplit_append pyMarkerL pre (mid ++ (btMarkerL ++ post)) hpy h1]
  rw [List.getD_cons_succ]
  rw [pySplit_head _ _ hpy]
  rw [pySplit_head _ _ hbt]
  exact beforeFirst_nested mid post h2 h3

/-! ### Helper lemmas about the alias table and install-command loops -/

theorem foldl_append_map {α β : Type} (f : α → β) :
    ∀ (l : List α) (init : List β),
      l.foldl (fun acc x => acc ++ [f x]) init = init ++ l.map f := by
  intro l
  induction l with
  | nil => intro init; simp
  | cons a t ih => intro init; simp [ih]

theorem find?_assoc : ∀ (l : List (String × String)), (l.map Prod.fst).Nodup →
    ∀ imp pkg, (imp, pkg) ∈ l → l.find? (fun pr => pr.1 == imp) = some (imp, pkg) := by
  intro l
  induction l with
  | nil => intro _ imp pkg h; cases h
  | cons hd t ih =>
    intro hnd imp pkg hm
    rw [List.map_cons, List.nodup_cons] at hnd
    by_cases hp : hd.1 = imp
    · have hhd : hd = (imp, pkg) := by
        rcases List.mem_cons.mp hm with h | h
        · exact h.symm
        · exact absurd (hp ▸ List.mem_map.mpr ⟨(imp, pkg), h, rfl⟩) hnd.1
      rw [List.find?_cons_of_pos _ (by simp [hp]), hhd]
    · have hm' : (imp, pkg) ∈ t := by
        rcases List.mem_cons.mp hm with h | h
        · exact absurd (congrArg Prod.fst h.symm) hp
        · exact h
      rw [List.find?_cons_of_neg _ (by simp [hp])]
      exact ih hnd.2 imp pkg hm'

theorem keys_nodup : (IMPORT_TO_PACKAGE.map Prod.fst).Nodup := by decide

/-! ### Claim theorems -/

/-- Claim C9: dependency resolution produces the explicit install directives
first, followed by one install directive per imported module name; each import
name present in the static alias table installs under its mapped package name,
and every name absent from the table installs under its own name. -/
theorem C9_dependency_resolution : ∀ (explicitPkgs imports : List String),
    (buildInstallCommands explicitPkgs imports =
      explicitPkgs.map explicitInstallCommand ++ imports.map importInstallCommand)
  ∧ (∀ imp pkg, (imp, pkg) ∈ IMPORT_TO_PACKAGE → packageFor imp = pkg)
  ∧ (∀ imp, (∀ pr ∈ IMPORT_TO_PACKAGE, pr.1 ≠ imp) → packageFor imp = imp) := by
  intro e i
  refine ⟨?_, ?_, ?_⟩
  · unfold buildInstallCommands
    rw [foldl_append_map, foldl_append_map]
    simp
  · intro imp pkg hm
    unfold packageFor
    rw [find?_assoc IMPORT_TO_PACKAGE keys_nodup imp pkg hm]
  · intro imp h
    unfold packageFor
    rw [List.find?_eq_none.mpr (fun x hx => by simp [h x hx])]

/-- Witness for C9 at concrete inputs: one explicit package before one import,
a table hit and a table miss. -/
theorem C9_witness :
    buildInstallCommands ["numpy pandas"] ["cv2"] =
      [explicitInstallCommand "numpy pandas", importInstallCommand "cv2"]
    ∧ packageFor "cv2" = "opencv-python" ∧ packageFor "numpy" = "numpy" := by
  have h := C9_dependency_resolution ["numpy pandas"] ["cv2"]
  exact ⟨by rw [h.1]; rfl, h.2.1 "cv2" "opencv-python" (by decide),
    h.2.2 "numpy" (by decide)⟩

/-- Claim C5: a call is judged failed exactly when the exit code is non-zero or
the output contains one of the fixed error signatures; exactly on failure the
fixed guidance note is appended to the returned text, and on success the
captured logs are returned unchanged. -/
theorem C5_result_classification : ∀ (exitCode : Int) (logs : String),
    (hasError exitCode logs = true ↔
      exitCode ≠ 0 ∨ ∃ ind ∈ error_indicators, ind.data <:+: logs.data)
  ∧ (classifyResult exitCode logs = logs ++ guidance ↔ hasError exitCode logs = true)
  ∧ (hasError exitCode logs = false → classifyResult exitCode logs = logs) := by
  intro ec logs
  have hne : logs ≠ logs ++ guidance := by
    intro habs
    have hlen := congrArg String.length habs
    rw [String.length_append] at hlen
    have hg : 0 < guidance.length := by decide
    omega
  refine ⟨?_, ?_, ?_⟩
  · unfold hasError
    simp [List.any_eq_true, containsSub_eq_true_iff]
  · unfold classifyResult
    by_cases h : hasError ec logs = true
    · simp [h]
    · simp [h, hne]
  · intro h
    unfold classifyResult
    simp [h]

/-- Witness for C5: a failing exit code gets the guidance appended, a clean
run returns its logs unchanged. -/
theorem C5_witness :
    classifyResult 1 "boom" = "boom" ++ guidance ∧ classifyResult 0 "fine" = "fine" :=
  ⟨((C5_result_classification 1 "boom").2.1).mpr (by decide),
   (C5_result_classification 0 "fine").2.2 (by decide)⟩

/-- Claim C10: when the snippet text holds a fenced block — text `pre`, then
the first occurrence of the opening marker, then body `mid`, then the next
fence, then `post` — only the body between the two markers is staged, the text
outside is discarded, and explicit pip-install directives are extracted from
the original unstripped text.  The hypotheses pin the markers: the opening
marker occurrence is the first in the text, the fence occurrence is the first
after the body, and the fence is not followed by a further backtick. -/
theorem C10_fenced_block_staging (pre mid post : List Char)
    (h1 : ∀ i < pre.length,
      ¬ pyMarkerL.isPrefixOf ((pre ++ (pyMarkerL ++ (mid ++ (btMarkerL ++ post)))).drop i) = true)
    (h2 : ∀ i < mid.length, ¬ btMarkerL.isPrefixOf ((mid ++ (btMarkerL ++ post)).drop i) = true)
    (h3 : post.head? ≠ some btChar) :
    planFor (String.mk (pre ++ (pyMarkerL ++ (mid ++ (btMarkerL ++ post))))) =
      { explicitPkgs :=
          explicitPackages (String.mk (pre ++ (pyMarkerL ++ (mid ++ (btMarkerL ++ post))))),
        stagedCode := String.mk mid } := by
  unfold planFor stripCodeBlockS
  exact congrArg (RequestPlan.mk _)
    (congrArg String.mk (stripCodeBlock_fenced pre mid post h1 h2 h3))

/-- Witness for C10: the staged code is exactly the fenced body, and the
explicit directive sitting outside the block is still extracted. -/
theorem C10_witness :
    (planFor (String.mk (preW ++ (pyMarkerL ++ (midW ++ (btMarkerL ++ postW)))))).stagedCode
        = String.mk midW
    ∧ (planFor (String.mk (preW ++ (pyMarkerL ++ (midW ++ (btMarkerL ++ postW)))))).explicitPkgs
        = ["requests"] := by
  have h := C10_fenced_block_staging preW midW postW (by decide) (by decide) (by decide)
  constructor
  · rw [h]
  · decide

/-- Left-cancellation of string append, used to tell the two staged file names
apart for any workspace directory. -/
theorem append_ne_of_ne {a b c : String} (h : b ≠ c) : a ++ b ≠ a ++ c := by
  intro habs
  apply h
  apply String.ext
  have hd := congrArg String.data habs
  rw [String.data_append, String.data_append] at hd
  exact List.append_cancel_left hd

/-- The filter chain left on the workspace file list by staging both transient
files and then removing both of them. -/
theorem filter_write_remove {fs : List (String × String)} {t w : String} (tc wc : String)
    (hne : t ≠ w)
    (ht : ∀ p ∈ fs, p.1 ≠ t) (hw : ∀ p ∈ fs, p.1 ≠ w) :
    ((((w, wc) :: ((t, tc) :: fs.filter (fun p => p.1 != t)).filter
        (fun p => p.1 != w)).filter (fun p => p.1 != t)).filter (fun p => p.1 != w)) = fs := by
  have e1 : fs.filter (fun p => p.1 != t) = fs :=
    List.filter_eq_self.mpr (fun p hp => by simpa using ht p hp)
  have e2 : fs.filter (fun p => p.1 != w) = fs :=
    List.filter_eq_self.mpr (fun p hp => by simpa using hw p hp)
  have s1 : List.filter (fun p => p.1 != w) ((t, tc) :: fs) = (t, tc) :: fs := by
    rw [List.filter_cons_of_pos (by simpa using hne), e2]
  have s2 : List.filter (fun p => p.1 != t) ((w, wc) :: (t, tc) :: fs) = (w, wc) :: fs := by
    rw [List.filter_cons_of_pos (by simpa using Ne.symm hne),
      List.filter_cons_of_neg (by simp), e1]
  have s3 : List.filter (fun p => p.1 != w) ((w, wc) :: fs) = fs := by
    rw [List.filter_cons_of_neg (by simp), e2]
  rw [e1, s1, s2, s3]

/-- Claim C6: for every request, when docker is reachable, exactly one
container invocation is dispatched; it runs the single wrapper script, which
was written containing the install commands followed by the snippet run line,
so installation and execution happen inside the same container instance. -/
theorem C6_install_and_run_same_instance :
    ∀ (env : Env) (code : String) (imports : List String) (wdir : Option String)
      (st0 : ExecState) (ec : Int) (logs : String),
    env.clientError = none → env.runOutcome = RunOutcome.completes ec logs →
    ((execute_python_code env code imports wdir st0).2.invocations =
        st0.invocations ++ [runInvocation env wdir]
      ∧ (runInvocation env wdir).command = "bash /workspace/run_wrapper.sh"
      ∧ (execute_python_code env code imports wdir st0).2.writes =
          st0.writes ++
            [(workspaceDir env wdir ++ "/temp.py", stripCodeBlockS code),
             (workspaceDir env wdir ++ "/run_wrapper.sh",
               wrapperScript (explicitPackages code) imports)]
      ∧ wrapperScript (explicitPackages code) imports =
          "#!/bin/bash\n" ++ String.intercalate "\n"
            ((explicitPackages code).map explicitInstallCommand ++
              imports.map importInstallCommand) ++ "\npython /workspace/temp.py\n") := by
  intro env code imports wdir st0 ec logs h1 h2
  obtain ⟨cwd, ind, hws, ce, ro⟩ := env
  simp only at h1 h2
  subst h1; subst h2
  refine ⟨rfl, rfl, ?_, ?_⟩
  · simp [execute_python_code, install_docker_image, writeFile, removeFile]
  · unfold wrapperScript buildInstallCommands
    rw [foldl_append_map, foldl_append_map]
    simp

/-- Witness for C6: one concrete call dispatches exactly one invocation running
the wrapper script. -/
theorem C6_witness :
    (execute_python_code envOk "print(1+1)" [] none ⟨[], [], []⟩).2.invocations =
      [runInvocation envOk none]
    ∧ (runInvocation envOk none).command = "bash /workspace/run_wrapper.sh" := by
  have h := C6_install_and_run_same_instance envOk "print(1+1)" [] none ⟨[], [], []⟩
    0 "2\n" rfl rfl
  exact ⟨by rw [h.1]; rfl, h.2.1⟩

/-- Claim C8: raised docker-environment errors are caught and surfaced as a
distinct error-result string, never thrown past the call boundary, and snippet
runtime failures are folded into the returned string through the classifier
rather than raised. -/
theorem C8_error_propagation :
    ∀ (env : Env) (code : String) (imports : List String) (wdir : Option String)
      (st0 : ExecState),
    (∀ e, env.clientError = some e →
      (execute_python_code env code imports wdir st0).1 = errorResult e)
  ∧ (∀ e, env.clientError = none → env.runOutcome = RunOutcome.raises e →
      (execute_python_code env code imports wdir st0).1 = errorResult e)
  ∧ (∀ ec logs, env.clientError = none → env.runOutcome = RunOutcome.completes ec logs →
      (execute_python_code env code imports wdir st0).1 = classifyResult ec logs) := by
  intro env code imports wdir st0
  obtain ⟨cwd, ind, hws, ce, ro⟩ := env
  refine ⟨?_, ?_, ?_⟩
  · intro e he
    simp only at he
    subst he
    rfl
  · intro e h1 h2
    simp only at h1 h2
    subst h1; subst h2
    rfl
  · intro ec logs h1 h2
    simp only at h1 h2
    subst h1; subst h2
    rfl

/-- Witness for C8: with the docker client unavailable the call returns the
distinct error result instead of raising. -/
theorem C8_witness :
    (execute_python_code envBad "print(1+1)" [] none ⟨[], [], []⟩).1 =
      errorResult "Docker daemon unreachable" :=
  (C8_error_propagation envBad "print(1+1)" [] none ⟨[], [], []⟩).1
    "Docker daemon unreachable" rfl

/-- Counterexample to claim C1 as stated: the container invocation that
executes the snippet carries no network restriction at all (docker defaults,
network enabled), and it is the same single invocation that performs dependency
installation, so snippet code gets exactly the network access of the install
phase rather than none. -/
theorem C1_counterexample :
    (execute_python_code envOk "import requests\nprint(1)" ["requests"] none
        ⟨[], [], []⟩).2.invocations.map networkRestricted = [false]
    ∧ (execute_python_code envOk "import requests\nprint(1)" ["requests"] none
        ⟨[], [], []⟩).2.invocations.map (fun i => i.command) =
        ["bash /workspace/run_wrapper.sh"] :=
  ⟨rfl, rfl⟩

/-- Claim C1 amended: the run command never includes network flags because the
single dispatched invocation — shared by the install phase and the snippet —
passes no network options at all, leaving docker default network access for
both phases. -/
theorem C1_amended_no_network_flags :
    ∀ (env : Env) (code : String) (imports : List String) (wdir : Option String)
      (st0 : ExecState) (ec : Int) (logs : String),
    env.clientError = none → env.runOutcome = RunOutcome.completes ec logs →
    ((execute_python_code env code imports wdir st0).2.invocations =
        st0.invocations ++ [runInvocation env wdir]
      ∧ (runInvocation env wdir).networkDisabled = false
      ∧ (runInvocation env wdir).networkMode = none
      ∧ networkRestricted (runInvocation env wdir) = false
      ∧ (runInvocation env wdir).command = "bash /workspace/run_wrapper.sh") := by
  intro env code imports wdir st0 ec logs h1 h2
  obtain ⟨cwd, ind, hws, ce, ro⟩ := env
  simp only at h1 h2
  subst h1; subst h2
  exact ⟨rfl, rfl, rfl, rfl, rfl⟩

/-- Witness for C1: the concrete dispatched invocation is unrestricted. -/
theorem C1_amended_witness :
    (execute_python_code envOk "print(1+1)" [] none ⟨[], [], []⟩).2.invocations =
      [runInvocation envOk none]
    ∧ networkRestricted (runInvocation envOk none) = false := by
  have h := C1_amended_no_network_flags envOk "print(1+1)" [] none ⟨[], [], []⟩ 0 "2\n" rfl rfl
  exact ⟨by rw [h.1]; rfl, h.2.2.2.1⟩

/-- Counterexample to claim C2 as stated: a first call whose snippet performs a
cd-equivalent directive does not change the working directory of a second call
threaded after it — both container invocations run with working directory
"/workspace", not the directory named by the cd. -/
theorem C2_counterexample :
    ((execute_python_code envOk relPathCode [] none
        (execute_python_code envOk cdCode [] none ⟨[], [], []⟩).2).2.invocations.map
          (fun i => i.workingDir)) = ["/workspace", "/workspace"]
    ∧ ("/workspace" : String) ≠ "/workspace/sub" :=
  ⟨rfl, by decide⟩

/-- Claim C2 amended: every dispatched invocation runs with the fixed container
working directory "/workspace"; no working-directory state is read from or
persisted to any session, so relative paths always resolve against the mounted
workspace root. -/
theorem C2_amended_workdir_constant :
    ∀ (env : Env) (code : String) (imports : List String) (wdir : Option String)
      (st0 : ExecState),
    ∀ inv ∈ (execute_python_code env code imports wdir st0).2.invocations,
      inv ∈ st0.invocations ∨ inv.workingDir = "/workspace" := by
  intro env code imports wdir st0 inv hinv
  obtain ⟨cwd, ind, hws, ce, ro⟩ := env
  cases ce with
  | some e =>
    exact Or.inl hinv
  | none =>
    cases ro with
    | raises e =>
      exact Or.inl hinv
    | completes ec logs =>
      simp only [execute_python_code, install_docker_image, writeFile, removeFile,
        List.mem_append, List.mem_singleton] at hinv
      rcases hinv with hinv | hinv
      · exact Or.inl hinv
      · right; rw [hinv]; rfl

/-- Witness for C2: the concrete invocation of a call is dispatched with the
constant working directory. -/
theorem C2_amended_witness :
    runInvocation envOk none ∈
      (execute_python_code envOk "print(1+1)" [] none ⟨[], [], []⟩).2.invocations
    ∧ (runInvocation envOk none ∈ (⟨[], [], []⟩ : ExecState).invocations
        ∨ (runInvocation envOk none).workingDir = "/workspace") := by
  have hmem : runInvocation envOk none ∈
      (execute_python_code envOk "print(1+1)" [] none ⟨[], [], []⟩).2.invocations := by
    rw [show (execute_python_code envOk "print(1+1)" [] none ⟨[], [], []⟩).2.invocations
        = [runInvocation envOk none] from rfl]
    exact List.mem_singleton.mpr rfl
  exact ⟨hmem, C2_amended_workdir_constant envOk "print(1+1)" [] none ⟨[], [], []⟩
    (runInvocation envOk none) hmem⟩

/-- Counterexample to claim C3 as stated: with the docker client unavailable
the call returns an error string and dispatches nothing — there is no fallback
to any other backend, sandboxed or direct. -/
theorem C3_counterexample :
    (execute_python_code envBad "print(1+1)" [] none ⟨[], [], []⟩).1 =
      "Error: Docker daemon unreachable\n\n---\n**Execution Failed**: Please fix the issue and try again."
    ∧ (execute_python_code envBad "print(1+1)" [] none ⟨[], [], []⟩).2.invocations = [] :=
  ⟨rfl, rfl⟩

/-- Claim C3 amended: docker is the only backend; when obtaining its client
fails, the exception is caught and returned as an error-result string, and the
snippet is not executed by any backend at all. -/
theorem C3_amended_single_backend :
    ∀ (env : Env) (code : String) (imports : List String) (wdir : Option String)
      (st0 : ExecState) (e : String),
    env.clientError = some e →
    ((execute_python_code env code imports wdir st0).1 = errorResult e
      ∧ (execute_python_code env code imports wdir st0).2.invocations = st0.invocations) := by
  intro env code imports wdir st0 e he
  obtain ⟨cwd, ind, hws, ce, ro⟩ := env
  simp only at he
  subst he
  exact ⟨rfl, rfl⟩

/-- Witness for C3: the concrete unavailable-docker call yields the error
result and no invocation. -/
theorem C3_amended_witness :
    (execute_python_code envBad "print(1+1)" [] none ⟨[], [], []⟩).1 =
      errorResult "Docker daemon unreachable"
    ∧ (execute_python_code envBad "print(1+1)" [] none ⟨[], [], []⟩).2.invocations = [] :=
  C3_amended_single_backend envBad "print(1+1)" [] none ⟨[], [], []⟩
    "Docker daemon unreachable" rfl

/-- Counterexample to claim C4 as stated: the dispatched invocation is waited
on with no timeout argument at all — there is no caller-supplied timeout
parameter, so no timeout failure kind can be reported. -/
theorem C4_counterexample :
    (execute_python_code envOk "while True:\n    pass" [] none
        ⟨[], [], []⟩).2.invocations.map (fun i => i.waitTimeout) = [none] :=
  rfl

/-- Claim C4 amended: `execute_python_code` accepts no timeout; every container
invocation it dispatches is waited on without a timeout argument and blocks
until the container exits, and no distinct timeout failure kind exists. -/
theorem C4_amended_no_timeout :
    ∀ (env : Env) (code : String) (imports : List String) (wdir : Option String)
      (st0 : ExecState),
    ∀ inv ∈ (execute_python_code env code imports wdir st0).2.invocations,
      inv ∈ st0.invocations ∨ inv.waitTimeout = none := by
  intro env code imports wdir st0 inv hinv
  obtain ⟨cwd, ind, hws, ce, ro⟩ := env
  cases ce with
  | some e =>
    exact Or.inl hinv
  | none =>
    cases ro with
    | raises e =>
      exact Or.inl hinv
    | completes ec logs =>
      simp only [execute_python_code, install_docker_image, writeFile, removeFile,
        List.mem_append, List.mem_singleton] at hinv
      rcases hinv with hinv | hinv
      · exact Or.inl hinv
      · right; rw [hinv]; rfl

/-- Witness for C4: the concrete invocation is waited on without a timeout. -/
theorem C4_amended_witness :
    runInvocation envOk none ∈
      (execute_python_code envOk "print(1)" [] none ⟨[], [], []⟩).2.invocations
    ∧ (runInvocation envOk none ∈ (⟨[], [], []⟩ : ExecState).invocations
        ∨ (runInvocation envOk none).waitTimeout = none) := by
  have hmem : runInvocation envOk none ∈
      (execute_python_code envOk "print(1)" [] none ⟨[], [], []⟩).2.invocations := by
    rw [show (execute_python_code envOk "print(1)" [] none ⟨[], [], []⟩).2.invocations
        = [runInvocation envOk none] from rfl]
    exact List.mem_singleton.mpr rfl
  exact ⟨hmem, C4_amended_no_timeout envOk "print(1)" [] none ⟨[], [], []⟩
    (runInvocation envOk none) hmem⟩

/-- Counterexample to claim C7 as stated: on the exception exit path (docker
client unavailable) the staged `temp.py` written before the failure point is
left behind in the workspace. -/
theorem C7_counterexample :
    (execute_python_code envBad "print(1+1)" [] none ⟨[], [], []⟩).2.files.map
      (fun p => p.1) = ["CWD/WORKSPACE/temp.py"] :=
  rfl

/-- Claim C7 amended: on the completed exit paths — success or snippet failure
alike — the staged `temp.py` and `run_wrapper.sh` are both removed, restoring
the workspace file list; on an exception path the files staged before the
exception remain. -/
theorem C7_amended_cleanup_on_completion :
    ∀ (env : Env) (code : String) (imports : List String) (wdir : Option String)
      (st0 : ExecState) (ec : Int) (logs : String),
    env.clientError = none → env.runOutcome = RunOutcome.completes ec logs →
    (∀ p ∈ st0.files, p.1 ≠ workspaceDir env wdir ++ "/temp.py") →
    (∀ p ∈ st0.files, p.1 ≠ workspaceDir env wdir ++ "/run_wrapper.sh") →
    (execute_python_code env code imports wdir st0).2.files = st0.files := by
  intro env code imports wdir st0 ec logs h1 h2 ht hw
  have hne : workspaceDir env wdir ++ "/temp.py" ≠ workspaceDir env wdir ++ "/run_wrapper.sh" :=
    append_ne_of_ne (by decide)
  obtain ⟨cwd, ind, hws, ce, ro⟩ := env
  simp only at h1 h2
  subst h1; subst h2
  simp only [execute_python_code, install_docker_image, writeFile, removeFile]
  exact filter_write_remove _ _ hne ht hw

/-- Witness for C7: a completed concrete call leaves the (empty) workspace file
list unchanged. -/
theorem C7_amended_witness :
    (execute_python_code envOk "print(1+1)" [] none ⟨[], [], []⟩).2.files = [] :=
  C7_amended_cleanup_on_completion envOk "print(1+1)" [] none ⟨[], [], []⟩ 0 "2\n"
    rfl rfl (by simp) (by simp)

end SafeExecute
